import Mathlib

/-!
Verification development for the ath-computations-orchestrator core:
the job-completion barrier (`app/orchestrator_service.py` +
`app/services/redis_service.py`) and the schema-driven decoder
(`app/aggregator_manager.py`).

Embedding conventions:
* Python numbers in the aggregator arrays are embedded as `ℚ`
  (the decoder only performs exact arithmetic on the inputs of interest;
  `round(x, 2)` is embedded as round-half-to-even at two decimals,
  matching Python's rounding mode).
* Python dicts produced by the decoder are embedded as association lists
  `List (String × Value)` in the literal key order of the source.
* The Redis hash for a job is embedded as `JobRecord`; the key being
  absent is `Option.none`.  The raw `schema` hash field is
  `Option (List FeatureSpec)` with `none` standing for the empty string.
* Sequential request handling is `update_job`; the fine-grained
  concurrent model `conc_step`/`run_schedule` decomposes the same
  handler at the boundaries of the individual Redis calls, each Redis
  call being one atomic step (the `create` and `increment` composites
  are conservatively taken atomic).
-/

/-- A JSON scalar appearing in a decoded-feature dict. -/
inductive Value where
  | str : String → Value
  | num : ℚ → Value
deriving DecidableEq, Repr

/-- One schema item, as consumed by `decode_final_output`.
`dataType` and `fields` are `Option` because the source reads them with
`item.get("dataType", "BOOLEAN")` / `item.get("fields", ["numOfNotNull", "numOfTrue"])`. -/
structure FeatureSpec where
  featureName : String
  offset : Nat
  length : Nat
  dataType : Option String
  fields : Option (List String)
deriving DecidableEq, Repr

/-- Round-half-to-even to an integer, the rounding mode of Python's `round`. -/
def roundHalfEven (q : ℚ) : ℤ :=
  let f := ⌊q⌋
  let r := q - f
  if r < 1/2 then f
  else if 1/2 < r then f + 1
  else if f % 2 = 0 then f else f + 1

/-- Python's `round(x, 2)`. -/
def pyRound2 (q : ℚ) : ℚ :=
  (roundHalfEven (q * 100) : ℚ) / 100

/-- Python's `str.capitalize()`: first character upper-cased, the rest lower-cased. -/
def pyCapitalize (s : String) : String :=
  match s.data with
  | [] => ""
  | c :: cs => String.mk (c.toUpper :: cs.map Char.toLower)

/-- `decode_boolean_feature(feature_name, data, fields)` of `aggregator_manager.py`. -/
def decode_boolean_feature (feature_name : String) (data : List ℚ) (fields : List String) :
    List (String × Value) :=
  if data.length < 2 then
    [("featureName", .str feature_name),
     ("dataType", .str "BOOLEAN"),
     ("aggregatedNotNull", .num 0),
     ("aggregatedTrue", .num 0),
     ("percentage", .num 0)]
  else
    let aggregated_not_null := data.getD 0 0
    let aggregated_true := data.getD 1 0
    let percentage :=
      if 0 < aggregated_not_null then aggregated_true / aggregated_not_null * 100 else 0
    [("featureName", .str feature_name),
     ("dataType", .str "BOOLEAN"),
     ("aggregatedNotNull", .num aggregated_not_null),
     ("aggregatedTrue", .num aggregated_true),
     ("percentage", .num (pyRound2 percentage))]

/-- `decode_numeric_feature(feature_name, data, fields)` of `aggregator_manager.py`. -/
def decode_numeric_feature (feature_name : String) (data : List ℚ) (fields : List String) :
    List (String × Value) :=
  if data.length < 7 then
    [("featureName", .str feature_name),
     ("dataType", .str "NUMERIC"),
     ("aggregatedNotNull", .num 0)]
  else
    [("featureName", .str feature_name),
     ("dataType", .str "NUMERIC"),
     ("aggregatedNotNull", .num (data.getD 0 0)),
     ("aggregatedMin", .num (data.getD 1 0)),
     ("aggregatedMax", .num (data.getD 2 0)),
     ("aggregatedAvg", .num (data.getD 3 0)),
     ("aggregatedQ1", .num (data.getD 4 0)),
     ("aggregatedQ2", .num (data.getD 5 0)),
     ("aggregatedQ3", .num (data.getD 6 0))]

/-- `decode_categorical_feature(feature_name, data, fields)` of `aggregator_manager.py`. -/
def decode_categorical_feature (feature_name : String) (data : List ℚ) (fields : List String) :
    List (String × Value) :=
  if data.length < 3 then
    [("featureName", .str feature_name),
     ("dataType", .str "CATEGORICAL"),
     ("aggregatedNotNull", .num 0)]
  else
    let aggregated_not_null := data.getD 0 0
    let num_unique_values := data.getD 1 0
    let top_value_count := data.getD 2 0
    let diversity :=
      if 0 < aggregated_not_null then num_unique_values / aggregated_not_null * 100 else 0
    [("featureName", .str feature_name),
     ("dataType", .str "CATEGORICAL"),
     ("aggregatedNotNull", .num aggregated_not_null),
     ("aggregatedUniqueValues", .num num_unique_values),
     ("aggregatedTopValueCount", .num top_value_count),
     ("diversity", .num (pyRound2 diversity))]

/-- `decode_generic_feature(feature_name, data_type, data, fields)` of `aggregator_manager.py`:
fields after the first are mapped positionally onto the slice values. -/
def decode_generic_feature (feature_name data_type : String) (data : List ℚ)
    (fields : List String) : List (String × Value) :=
  [("featureName", .str feature_name),
   ("dataType", .str data_type),
   ("aggregatedNotNull", .num (if 0 < data.length then data.getD 0 0 else 0))]
  ++ ((fields.drop 1).enumFrom 1).filterMap
      (fun p =>
        if p.1 < data.length then
          some ("aggregated" ++ pyCapitalize p.2, Value.num (data.getD p.1 0))
        else none)

/-- The per-item dispatch of the loop body of `decode_final_output`, after the
slice-length check: reads `dataType`/`fields` with their `.get` defaults and
dispatches on the data type. -/
def decode_feature_item (item : FeatureSpec) (slice_of_data : List ℚ) : List (String × Value) :=
  let data_type := item.dataType.getD "BOOLEAN"
  let fields := item.fields.getD ["numOfNotNull", "numOfTrue"]
  if data_type = "BOOLEAN" then
    decode_boolean_feature item.featureName slice_of_data fields
  else if data_type = "NUMERIC" then
    decode_numeric_feature item.featureName slice_of_data fields
  else if data_type = "NOMINAL" ∨ data_type = "ORDINAL" then
    decode_categorical_feature item.featureName slice_of_data fields
  else
    decode_generic_feature item.featureName data_type slice_of_data fields

/-- The schema loop of `decode_final_output`: for each item slice
`aggregator_array[offset : offset+length]`; a slice shorter than `length`
is skipped (`continue`), otherwise the decoded record is appended. -/
def decode_features (schema : List FeatureSpec) (aggregator_array : List ℚ) :
    List (List (String × Value)) :=
  match schema with
  | [] => []
  | item :: rest =>
      let slice_of_data := (aggregator_array.drop item.offset).take item.length
      if slice_of_data.length < item.length then
        decode_features rest aggregator_array
      else
        decode_feature_item item slice_of_data :: decode_features rest aggregator_array

/-- A decoded-feature record: the association list for one feature. -/
abbrev FeatureRec := List (String × Value)

/-- The `finalResult` / poll-response JSON object, with the fields the core
reads or writes.  `decodedFeatures`, `completedAt`, `timestamp` are `none`
when the key is absent from the dict. -/
structure ResultJson where
  status : String
  computationOutput : List ℚ
  decodedFeatures : Option (List FeatureRec)
  completedAt : Option String
  timestamp : Option String
deriving DecidableEq, Repr

/-- The Redis hash `job:{job_id}` plus the set `job:{job_id}:updatedClients`.
`schema = none` models the empty-string hash field. -/
structure JobRecord where
  totalClients : Int
  doneCount : Int
  schema : Option (List FeatureSpec)
  finalResult : Option ResultJson
  updatedClients : Finset String
deriving DecidableEq

/-- `RedisService.create_job_record`: fresh hash with `doneCount=0`, empty
schema and final result, and the members set deleted. -/
def create_job_record (total_clients : Int) : JobRecord :=
  { totalClients := total_clients
    doneCount := 0
    schema := none
    finalResult := none
    updatedClients := ∅ }

/-- `RedisService.store_schema`: writes the schema only when the raw hash
field is still empty. -/
def store_schema (j : JobRecord) (schema : List FeatureSpec) : JobRecord :=
  if j.schema = none then { j with schema := some schema } else j

/-- `RedisService.increment_done_count`: `SISMEMBER`, and when absent
`SADD` + `HINCRBY doneCount 1`. -/
def increment_done_count (j : JobRecord) (client_id : String) : JobRecord :=
  if client_id ∈ j.updatedClients then j
  else
    { j with
      updatedClients := insert client_id j.updatedClients
      doneCount := j.doneCount + 1 }

/-- `RedisService.set_final_result`: unconditional overwrite of the field. -/
def set_final_result (j : JobRecord) (final_result : ResultJson) : JobRecord :=
  { j with finalResult := some final_result }

/-- `_is_job_completed(job_info)` of `orchestrator_service.py`:
`bool(final_result and final_result.get("status") == "COMPLETED")`. -/
def _is_job_completed (final_result : Option ResultJson) : Bool :=
  match final_result with
  | some r => r.status == "COMPLETED"
  | none => false

/-- Python truthiness of a parsed `schema` value (`None` and `[]` are falsy). -/
def schema_truthy (schema : Option (List FeatureSpec)) : Bool :=
  match schema with
  | some l => !l.isEmpty
  | none => false

/-- Step 4 of `update_job` as one unit: `if schema and not job_info.get("schema"):
redis_service.store_schema(job_id, schema)` — a provided truthy schema is
stored when the job's parsed schema is falsy. -/
def maybe_store_schema (j : JobRecord) (schema : Option (List FeatureSpec)) : JobRecord :=
  match schema with
  | some sch => if sch ≠ [] ∧ schema_truthy j.schema = false then store_schema j sch else j
  | none => j

/-- The HTTP 200 message variants of `update_job`. -/
inductive UpdateMsg where
  | alreadyCompleted
  | recorded
deriving DecidableEq, Repr

/-- Result of one `POST /api/update`: the new store state, the response
message, and whether an aggregator thread was spawned. -/
structure UpdateOutcome where
  store : Option JobRecord
  msg : UpdateMsg
  triggered : Bool
deriving DecidableEq

/-- `update_job` of `orchestrator_service.py`, run atomically
(the sequential semantics of one request):
1. create the record if absent; 2. reload; 3. early exit when completed;
4. store a provided schema when none is stored; reload;
5. increment when the client is not yet a member; reload;
6. spawn the aggregator thread when `doneCount >= totalClients`. -/
def update_job (st : Option JobRecord) (client_id : String) (total_clients : Int)
    (schema : Option (List FeatureSpec)) : UpdateOutcome :=
  let st1 : JobRecord :=
    match st with
    | none => create_job_record total_clients
    | some j => j
  if _is_job_completed st1.finalResult then
    { store := some st1, msg := .alreadyCompleted, triggered := false }
  else
    let st2 : JobRecord := maybe_store_schema st1 schema
    if client_id ∈ st2.updatedClients then
      { store := some st2, msg := .recorded, triggered := false }
    else
      let st3 := increment_done_count st2 client_id
      { store := some st3, msg := .recorded,
        triggered := decide (st3.totalClients ≤ st3.doneCount) }

/-- One inbound HTTP operation on a single job: an update request, or a
`GET /api/job-status` query (which only reads the store). -/
inductive Op where
  | update (client_id : String) (total_clients : Int) (schema : Option (List FeatureSpec))
  | statusQuery
deriving DecidableEq

/-- Effect of one operation on the job's store state. -/
def apply_op (st : Option JobRecord) : Op → Option JobRecord
  | .update c n sch => (update_job st c n sch).store
  | .statusQuery => st

/-- Sequential execution of a list of operations. -/
def runOps (st : Option JobRecord) (ops : List Op) : Option JobRecord :=
  ops.foldl apply_op st

/-- `doneCount` as read through `get_job_info` (0 when the job is absent). -/
def doneCountOf (st : Option JobRecord) : Int :=
  match st with
  | some j => j.doneCount
  | none => 0

/-- `totalClients` as read through `get_job_info` (0 when the job is absent). -/
def totalClientsOf (st : Option JobRecord) : Int :=
  match st with
  | some j => j.totalClients
  | none => 0

/-- The membership set as read through `get_job_info`. -/
def updatedClientsOf (st : Option JobRecord) : Finset String :=
  match st with
  | some j => j.updatedClients
  | none => ∅

/-- The raw stored schema field. -/
def schemaOf (st : Option JobRecord) : Option (List FeatureSpec) :=
  match st with
  | some j => j.schema
  | none => none

/-- The distinct client identifiers carried by the update operations of a trace. -/
def opClients (ops : List Op) : Finset String :=
  match ops with
  | [] => ∅
  | .update c _ _ :: rest => insert c (opClients rest)
  | .statusQuery :: rest => opClients rest

/-!
Fine-grained concurrent model of `update_job`.  One request in flight is a
`PendingReq`; each `conc_step` performs the request's next Redis call
atomically and advances its program counter.  The steps are the Redis-call
boundaries of the handler:
pc 0 = `job_exists` + `create_job_record` (taken as one atomic step,
conservatively — the source's create is itself racy);
pc 1 = `get_job_info` + completed check;
pc 2 = schema store when provided and absent;
pc 3 = `get_job_info` + membership snapshot;
pc 4 = `increment_done_count` when the snapshot showed a non-member
(taken as one atomic step, conservatively);
pc 5 = `get_job_info` + the `doneCount >= totalClients` trigger check;
pc 6 = finished.
-/

/-- Shared state of the concurrent model: the job's store state plus how many
aggregator threads have been spawned so far. -/
structure ConcState where
  store : Option JobRecord
  triggers : Nat
deriving DecidableEq

/-- One in-flight `POST /api/update` request: its arguments, its program
counter, and the membership flag read at pc 3. -/
structure PendingReq where
  client_id : String
  total_clients : Int
  schema : Option (List FeatureSpec)
  pc : Nat
  sawMember : Bool
deriving DecidableEq

/-- A fresh request before any of its Redis calls ran. -/
def mkReq (client_id : String) (total_clients : Int) : PendingReq :=
  { client_id := client_id, total_clients := total_clients, schema := none,
    pc := 0, sawMember := false }

/-- One atomic step of one in-flight request (see the step table above). -/
def conc_step (s : ConcState) (r : PendingReq) : ConcState × PendingReq :=
  match r.pc with
  | 0 =>
      let st :=
        match s.store with
        | none => some (create_job_record r.total_clients)
        | some j => some j
      ({ s with store := st }, { r with pc := 1 })
  | 1 =>
      match s.store with
      | some j =>
          if _is_job_completed j.finalResult then (s, { r with pc := 6 })
          else (s, { r with pc := 2 })
      | none => (s, { r with pc := 6 })
  | 2 =>
      match s.store with
      | some j =>
          ({ s with store := some (maybe_store_schema j r.schema) }, { r with pc := 3 })
      | none => (s, { r with pc := 6 })
  | 3 =>
      match s.store with
      | some j =>
          (s, { r with sawMember := decide (r.client_id ∈ j.updatedClients), pc := 4 })
      | none => (s, { r with pc := 6 })
  | 4 =>
      if r.sawMember then (s, { r with pc := 6 })
      else
        match s.store with
        | some j =>
            ({ s with store := some (increment_done_count j r.client_id) }, { r with pc := 5 })
        | none => (s, { r with pc := 6 })
  | 5 =>
      match s.store with
      | some j =>
          (if j.totalClients ≤ j.doneCount then { s with triggers := s.triggers + 1 } else s,
           { r with pc := 6 })
      | none => (s, { r with pc := 6 })
  | _ => (s, r)

/-- Run a schedule: each entry names the request (by index) that performs its
next atomic step. -/
def run_schedule (s : ConcState) (reqs : List PendingReq) (sched : List Nat) :
    ConcState × List PendingReq :=
  match sched with
  | [] => (s, reqs)
  | i :: rest =>
      match reqs[i]? with
      | some r =>
          let sr := conc_step s r
          run_schedule sr.1 (reqs.set i sr.2) rest
      | none => run_schedule s reqs rest

/-!
Model of the aggregation client (`aggregator_manager.py`).  Network I/O is
embedded by giving the polling loop the finite list of responses it will
observe; an exhausted list means the loop is still running (it never exits
by itself), so the driver returns `none` in that case.
-/

/-- One response of the `GET /api/get-result/...` poll. -/
inductive PollResponse where
  | ok (body : ResultJson)
  | httpError
  | netError
deriving DecidableEq

/-- One call handed to the Result Sink (`handle_final_results` arguments). -/
structure SinkCall where
  aggregated_data : List FeatureRec
  job_id : String
  client_list : List String
deriving DecidableEq

/-- `decode_final_output(job_id, aggregator_array)`: returns `[]` when the job
is absent or when no (truthy) schema is stored, else runs the schema loop. -/
def decode_final_output (st : Option JobRecord) (aggregator_array : List ℚ) :
    List FeatureRec :=
  match st with
  | none => []
  | some j =>
      if schema_truthy j.schema = false then []
      else decode_features (j.schema.getD []) aggregator_array

/-- The `while True` poll loop of `trigger_and_poll_aggregator`, driven by the
listed responses: non-200 and network errors are retried, a body whose status
is not `COMPLETED` is retried, and on `COMPLETED` the output array is decoded;
a non-empty decode is attached to the payload and forwarded to the sink. -/
def poll_for_result (st : Option JobRecord) (job_id : String)
    (updated_clients : List String) :
    List PollResponse → Option (ResultJson × List SinkCall)
  | [] => none
  | .ok body :: rest =>
      if body.status == "COMPLETED" then
        let computation_output := body.computationOutput
        let decoded_info := decode_final_output st computation_output
        if decoded_info.isEmpty then
          some (body, [])
        else
          some ({ body with decodedFeatures := some decoded_info },
                [{ aggregated_data := decoded_info, job_id := job_id,
                   client_list := updated_clients }])
      else poll_for_result st job_id updated_clients rest
  | .httpError :: rest => poll_for_result st job_id updated_clients rest
  | .netError :: rest => poll_for_result st job_id updated_clients rest

/-- `trigger_and_poll_aggregator(job_id)`: `{}` (here `none`) when the job is
absent, has no recorded clients, or the start call fails; else the poll loop. -/
def trigger_and_poll_aggregator (st : Option JobRecord) (job_id : String)
    (start_ok : Bool) (polls : List PollResponse) : Option (ResultJson × List SinkCall) :=
  match st with
  | none => none
  | some j =>
      let updated_clients := j.updatedClients.sort (· ≤ ·)
      if updated_clients.isEmpty then none
      else if start_ok = false then none
      else poll_for_result (some j) job_id updated_clients polls

/-- `aggregator_task(job_id)` of `orchestrator_service.py`: when the
aggregator returned a non-empty result, stamp it with the completion time and
persist it via `set_final_result`.  `now` stands for `datetime.now().isoformat()`. -/
def aggregator_task (st : Option JobRecord) (job_id : String) (start_ok : Bool)
    (polls : List PollResponse) (now : String) : Option JobRecord × List SinkCall :=
  match st, trigger_and_poll_aggregator st job_id start_ok polls with
  | some j, some rs =>
      (some (set_final_result j { rs.1 with completedAt := some now, timestamp := some now }),
       rs.2)
  | _, _ => (st, [])

/-! Theorems. -/

theorem pyRound2_zero : pyRound2 0 = 0 := by
  norm_num [pyRound2, roundHalfEven]

/-- C4: `decode` is deterministic and order-preserving (it is a function of
schema and array); on the schema `[{featureName: "a", offset: 0, length: 2,
dataType: "BOOLEAN"}]` and array `[10, 5]` it yields exactly the record
`{featureName: "a", dataType: "BOOLEAN", aggregatedNotNull: 10,
aggregatedTrue: 5, percentage: 50.0}`; and for every BOOLEAN feature with at
least the two required values, `percentage` is `trueCount / notNull * 100`
rounded to two decimals when `notNull > 0`, else `0`. -/
theorem decode_boolean_example_and_percentage :
    decode_features [⟨"a", 0, 2, some "BOOLEAN", none⟩] [10, 5] =
      [[("featureName", .str "a"), ("dataType", .str "BOOLEAN"),
        ("aggregatedNotNull", .num 10), ("aggregatedTrue", .num 5),
        ("percentage", .num 50)]] ∧
    ∀ (nm : String) (data : List ℚ) (flds : List String), 2 ≤ data.length →
      decode_boolean_feature nm data flds =
        [("featureName", .str nm), ("dataType", .str "BOOLEAN"),
         ("aggregatedNotNull", .num (data.getD 0 0)),
         ("aggregatedTrue", .num (data.getD 1 0)),
         ("percentage", .num (if 0 < data.getD 0 0
                              then pyRound2 (data.getD 1 0 / data.getD 0 0 * 100)
                              else 0))] := by
  constructor
  · norm_num [decode_features, decode_feature_item, decode_boolean_feature,
      pyRound2, roundHalfEven, List.lookup]
  · intro nm data flds h
    unfold decode_boolean_feature
    rw [if_neg (by omega)]
    simp only []
    rw [apply_ite pyRound2, pyRound2_zero]

/-- Witness for C4's general percentage clause at a concrete boolean slice. -/
theorem decode_boolean_example_and_percentage_witness :
    decode_boolean_feature "b" [(4 : ℚ), 1] [] =
      [("featureName", .str "b"), ("dataType", .str "BOOLEAN"),
       ("aggregatedNotNull", .num ([(4 : ℚ), 1].getD 0 0)),
       ("aggregatedTrue", .num ([(4 : ℚ), 1].getD 1 0)),
       ("percentage", .num (if 0 < ([(4 : ℚ), 1].getD 0 0) then
                              pyRound2 ([(4 : ℚ), 1].getD 1 0 / [(4 : ℚ), 1].getD 0 0 * 100)
                            else 0))] :=
  decode_boolean_example_and_percentage.2 "b" [4, 1] [] (by decide)

/-- C10: every record produced for a NOMINAL or ORDINAL feature carries the
dataType string `"CATEGORICAL"` — in the full (slice length ≥ 3) case and in
the degraded short-slice case alike — so decode's output does not preserve
the NOMINAL/ORDINAL distinction. -/
theorem categorical_datatype_collapse :
    (∀ (nm : String) (data : List ℚ) (flds : List String),
        (decode_categorical_feature nm data flds).lookup "dataType" =
          some (.str "CATEGORICAL")) ∧
    ∀ (nm : String) (off len : Nat) (flds : Option (List String)) (dt : String)
      (arr : List ℚ), dt = "NOMINAL" ∨ dt = "ORDINAL" →
      ∀ rec ∈ decode_features [⟨nm, off, len, some dt, flds⟩] arr,
        rec.lookup "dataType" = some (.str "CATEGORICAL") := by
  have hcat : ∀ (nm : String) (data : List ℚ) (flds : List String),
      (decode_categorical_feature nm data flds).lookup "dataType" =
        some (.str "CATEGORICAL") := by
    intro nm data flds
    unfold decode_categorical_feature
    split_ifs <;> rfl
  refine ⟨hcat, ?_⟩
  intro nm off len flds dt arr hdt rec hrec
  unfold decode_features at hrec
  by_cases hshort : ((arr.drop off).take len).length < len
  · simp only [hshort, if_pos, decode_features] at hrec
    exact absurd hrec (List.not_mem_nil rec)
  · simp only [hshort, if_neg, if_false, decode_features, List.mem_singleton] at hrec
    subst hrec
    unfold decode_feature_item
    rcases hdt with h | h <;> subst h <;>
      simp only [Option.getD_some] <;>
      rw [if_neg (by decide), if_neg (by decide), if_pos (by decide)] <;>
      exact hcat _ _ _

/-- Witness for C10 at a concrete NOMINAL feature with a full slice. -/
theorem categorical_datatype_collapse_witness :
    (decode_feature_item ⟨"x", 0, 3, some "NOMINAL", none⟩
        (([(6 : ℚ), 2, 3].drop 0).take 3)).lookup "dataType" =
      some (.str "CATEGORICAL") :=
  categorical_datatype_collapse.2 "x" 0 3 none "NOMINAL" [6, 2, 3] (Or.inl rfl)
    (decode_feature_item ⟨"x", 0, 3, some "NOMINAL", none⟩ (([(6 : ℚ), 2, 3].drop 0).take 3))
    (by unfold decode_features; norm_num)

/-- C6: for every schema and array, a feature whose slice
`array[offset : offset+length]` has fewer than `length` elements is skipped
(no record), and every other feature still yields its record: the decode
output is exactly the per-item decode of the features whose slice is full,
in schema order. -/
theorem decode_skips_short_and_keeps_rest (schema : List FeatureSpec) (arr : List ℚ) :
    decode_features schema arr =
      (schema.filter fun item =>
          item.length ≤ ((arr.drop item.offset).take item.length).length).map
        fun item => decode_feature_item item ((arr.drop item.offset).take item.length) := by
  induction schema with
  | nil => rfl
  | cons item rest ih =>
      unfold decode_features
      by_cases h : ((arr.drop item.offset).take item.length).length < item.length
      · rw [if_pos h, List.filter_cons_of_neg (by simpa using h)]
        exact ih
      · rw [if_neg h, List.filter_cons_of_pos (by simpa using Nat.le_of_not_lt h)]
        simp only [List.map_cons]
        exact congrArg _ ih

/-- C5 counterexample: a NUMERIC feature declaring `length = 7` whose slice is
shorter than 7 is skipped entirely — decode yields no record at all for it,
not a record with `aggregatedNotNull` defaulted to 0. -/
theorem numeric_short_slice_no_record :
    decode_features [⟨"a", 0, 7, some "NUMERIC", none⟩] [1, 2, 3] = [] := by
  norm_num [decode_features]

/-- C5 (amended): a NUMERIC feature whose declared `length` is below the 7
required values — so its full slice is available but shorter than 7 — yields
exactly the record with `featureName`, `dataType` and `aggregatedNotNull = 0`
and no other numeric fields; when the slice itself is shorter than the
declared `length`, the feature is skipped and no record is produced. -/
theorem numeric_short_length_default_record (nm : String) (off len : Nat)
    (flds : Option (List String)) (arr : List ℚ)
    (h7 : len < 7) (hfit : off + len ≤ arr.length) :
    decode_features [⟨nm, off, len, some "NUMERIC", flds⟩] arr =
      [[("featureName", .str nm), ("dataType", .str "NUMERIC"),
        ("aggregatedNotNull", .num 0)]] := by
  have hslice : ((arr.drop off).take len).length = len := by
    simp only [List.length_take, List.length_drop]
    omega
  simp only [decode_features, decode_feature_item, Option.getD_some, hslice]
  rw [if_neg (by omega), if_neg (by decide), if_pos trivial]
  unfold decode_numeric_feature
  rw [hslice, if_pos h7]

/-- Witness for C5's amended statement at a concrete short-length feature. -/
theorem numeric_short_length_default_record_witness :
    decode_features [⟨"n", 1, 3, some "NUMERIC", none⟩] [0, 1, 2, 3] =
      [[("featureName", .str "n"), ("dataType", .str "NUMERIC"),
        ("aggregatedNotNull", .num 0)]] :=
  numeric_short_length_default_record "n" 1 3 none [0, 1, 2, 3] (by decide) (by decide)

/-- The `finalResult` field as read through `get_job_info`. -/
def finalResultOf (st : Option JobRecord) : Option ResultJson :=
  match st with
  | some j => j.finalResult
  | none => none

theorem store_schema_keeps_existing (j : JobRecord) (sch σ : List FeatureSpec)
    (h : j.schema = some σ) : (store_schema j sch).schema = some σ := by
  unfold store_schema
  rw [if_neg (by simp [h])]
  exact h

theorem store_schema_clients (j : JobRecord) (s : List FeatureSpec) :
    (store_schema j s).updatedClients = j.updatedClients := by
  unfold store_schema
  split_ifs <;> rfl

theorem store_schema_doneCount (j : JobRecord) (s : List FeatureSpec) :
    (store_schema j s).doneCount = j.doneCount := by
  unfold store_schema
  split_ifs <;> rfl

theorem store_schema_finalResult (j : JobRecord) (s : List FeatureSpec) :
    (store_schema j s).finalResult = j.finalResult := by
  unfold store_schema
  split_ifs <;> rfl

theorem store_schema_totalClients (j : JobRecord) (s : List FeatureSpec) :
    (store_schema j s).totalClients = j.totalClients := by
  unfold store_schema
  split_ifs <;> rfl

theorem maybe_store_schema_clients (j : JobRecord) (sch : Option (List FeatureSpec)) :
    (maybe_store_schema j sch).updatedClients = j.updatedClients := by
  unfold maybe_store_schema
  cases sch with
  | none => rfl
  | some s =>
      dsimp only
      split_ifs <;> simp [store_schema_clients]

theorem maybe_store_schema_doneCount (j : JobRecord) (sch : Option (List FeatureSpec)) :
    (maybe_store_schema j sch).doneCount = j.doneCount := by
  unfold maybe_store_schema
  cases sch with
  | none => rfl
  | some s =>
      dsimp only
      split_ifs <;> simp [store_schema_doneCount]

theorem maybe_store_schema_finalResult (j : JobRecord) (sch : Option (List FeatureSpec)) :
    (maybe_store_schema j sch).finalResult = j.finalResult := by
  unfold maybe_store_schema
  cases sch with
  | none => rfl
  | some s =>
      dsimp only
      split_ifs <;> simp [store_schema_finalResult]

theorem maybe_store_schema_totalClients (j : JobRecord) (sch : Option (List FeatureSpec)) :
    (maybe_store_schema j sch).totalClients = j.totalClients := by
  unfold maybe_store_schema
  cases sch with
  | none => rfl
  | some s =>
      dsimp only
      split_ifs <;> simp [store_schema_totalClients]

theorem maybe_store_schema_keeps (j : JobRecord) (sch : Option (List FeatureSpec))
    (σ : List FeatureSpec) (h : j.schema = some σ) :
    (maybe_store_schema j sch).schema = some σ := by
  unfold maybe_store_schema
  cases sch with
  | none => exact h
  | some s =>
      dsimp only
      split_ifs with hs
      · exact store_schema_keeps_existing j s σ h
      · exact h

/-- C8: once a job's `finalResult` has status COMPLETED, any further update
request returns the "already completed" 200 response, leaves the whole job
record unchanged (no membership change, no count change, no schema write)
and spawns no aggregation thread. -/
theorem completed_job_update_inert (j : JobRecord) (c : String) (n : Int)
    (sch : Option (List FeatureSpec))
    (h : _is_job_completed j.finalResult = true) :
    update_job (some j) c n sch =
      { store := some j, msg := .alreadyCompleted, triggered := false } := by
  simp [update_job, h]

/-- Witness for C8 on a concrete completed job record. -/
theorem completed_job_update_inert_witness :
    update_job
        (some { totalClients := 2, doneCount := 2, schema := none,
                finalResult := some { status := "COMPLETED", computationOutput := [],
                                      decodedFeatures := none, completedAt := none,
                                      timestamp := none },
                updatedClients := {"a", "b"} })
        "c3" 2 none =
      { store := some { totalClients := 2, doneCount := 2, schema := none,
                        finalResult := some { status := "COMPLETED", computationOutput := [],
                                              decodedFeatures := none, completedAt := none,
                                              timestamp := none },
                        updatedClients := {"a", "b"} },
        msg := .alreadyCompleted, triggered := false } :=
  completed_job_update_inert _ "c3" 2 none (by decide)

theorem update_job_schema_keeps (j : JobRecord) (c : String) (n : Int)
    (sch : Option (List FeatureSpec)) (σ : List FeatureSpec) (h : j.schema = some σ) :
    schemaOf (update_job (some j) c n sch).store = some σ := by
  unfold update_job
  dsimp only
  split_ifs <;>
    simp_all [schemaOf, increment_done_count, maybe_store_schema_keeps j sch σ h]

theorem apply_op_schema_keeps (st : Option JobRecord) (op : Op) (σ : List FeatureSpec)
    (h : schemaOf st = some σ) : schemaOf (apply_op st op) = some σ := by
  cases st with
  | none => simp [schemaOf] at h
  | some j =>
      cases op with
      | statusQuery => exact h
      | update c n sch => exact update_job_schema_keeps j c n sch σ h

/-- C7: once a schema is stored for a job, no later sequence of update (or
status) requests — whatever schemas they carry — ever replaces it: the store
still returns the first stored schema. -/
theorem schema_first_writer_wins (st : Option JobRecord) (σ : List FeatureSpec)
    (ops : List Op) (h : schemaOf st = some σ) :
    schemaOf (runOps st ops) = some σ := by
  induction ops generalizing st with
  | nil => exact h
  | cons op rest ih => exact ih (apply_op st op) (apply_op_schema_keeps st op σ h)

/-- Witness for C7: a stored boolean schema survives a later update carrying
a different schema. -/
theorem schema_first_writer_wins_witness :
    schemaOf (runOps
        (some { totalClients := 2, doneCount := 1, schema := some [⟨"a", 0, 2, some "BOOLEAN", none⟩],
                finalResult := none, updatedClients := {"c1"} })
        [.update "c2" 2 (some [⟨"b", 0, 7, some "NUMERIC", none⟩])]) =
      some [⟨"a", 0, 2, some "BOOLEAN", none⟩] :=
  schema_first_writer_wins _ _ _ (by rfl)

theorem update_job_on_completed (j : JobRecord) (c : String) (n : Int)
    (sch : Option (List FeatureSpec)) (h : _is_job_completed j.finalResult = true) :
    update_job (some j) c n sch =
      { store := some j, msg := .alreadyCompleted, triggered := false } := by
  simp [update_job, h]

theorem update_job_keeps_member (j : JobRecord) (c c2 : String) (n : Int)
    (sch : Option (List FeatureSpec)) (h : c ∈ j.updatedClients) :
    c ∈ updatedClientsOf (update_job (some j) c2 n sch).store := by
  unfold update_job
  dsimp only
  split_ifs <;>
    simp_all [updatedClientsOf, increment_done_count, maybe_store_schema_clients]

theorem apply_op_on_completed (st : Option JobRecord) (op : Op)
    (h : _is_job_completed (finalResultOf st) = true) : apply_op st op = st := by
  cases st with
  | none => simp [finalResultOf, _is_job_completed] at h
  | some j =>
      simp only [finalResultOf] at h
      cases op with
      | statusQuery => rfl
      | update c n sch => simp [apply_op, update_job, h]

theorem apply_op_keeps_member (st : Option JobRecord) (op : Op) (c : String)
    (h : c ∈ updatedClientsOf st) : c ∈ updatedClientsOf (apply_op st op) := by
  cases st with
  | none => simp [updatedClientsOf] at h
  | some j =>
      cases op with
      | statusQuery => exact h
      | update c2 n sch =>
          exact update_job_keeps_member j c c2 n sch (by simpa [updatedClientsOf] using h)

theorem runOps_keeps_completed_or_member (st : Option JobRecord) (ops : List Op) (c : String)
    (h : _is_job_completed (finalResultOf st) = true ∨ c ∈ updatedClientsOf st) :
    _is_job_completed (finalResultOf (runOps st ops)) = true ∨
      c ∈ updatedClientsOf (runOps st ops) := by
  induction ops generalizing st with
  | nil => exact h
  | cons op rest ih =>
      apply ih
      rcases h with h | h
      · rw [apply_op_on_completed st op h]
        exact Or.inl h
      · exact Or.inr (apply_op_keeps_member st op c h)

theorem update_job_completed_or_member (st : Option JobRecord) (c : String) (n : Int)
    (sch : Option (List FeatureSpec)) :
    _is_job_completed (finalResultOf (update_job st c n sch).store) = true ∨
      c ∈ updatedClientsOf (update_job st c n sch).store := by
  unfold update_job
  dsimp only
  cases st with
  | none =>
      split_ifs <;> simp_all [finalResultOf, updatedClientsOf, increment_done_count,
        create_job_record, maybe_store_schema_clients, maybe_store_schema_finalResult,
        _is_job_completed]
  | some j =>
      split_ifs <;> simp_all [finalResultOf, updatedClientsOf, increment_done_count,
        maybe_store_schema_clients, maybe_store_schema_finalResult, _is_job_completed]

theorem update_job_member_count (j : JobRecord) (c : String) (n : Int)
    (sch : Option (List FeatureSpec)) (h : c ∈ j.updatedClients) :
    doneCountOf (update_job (some j) c n sch).store = j.doneCount := by
  unfold update_job
  dsimp only
  split_ifs <;>
    simp_all [doneCountOf, increment_done_count, maybe_store_schema_clients,
      maybe_store_schema_doneCount]

/-- C3: a second update request with the same `(jobId, clientId)` pair leaves
`doneCount` unchanged, however many other operations (updates by other
clients, status queries) happen between the two requests. -/
theorem duplicate_update_never_double_counts (st : Option JobRecord) (c : String)
    (n n2 : Int) (sch sch2 : Option (List FeatureSpec)) (mid : List Op) :
    doneCountOf ((update_job (runOps (update_job st c n sch).store mid) c n2 sch2).store) =
      doneCountOf (runOps (update_job st c n sch).store mid) := by
  have h2 := runOps_keeps_completed_or_member _ mid c (update_job_completed_or_member st c n sch)
  cases hE : runOps (update_job st c n sch).store mid with
  | none => rw [hE] at h2; simp [finalResultOf, updatedClientsOf, _is_job_completed] at h2
  | some j2 =>
      rw [hE] at h2
      rcases h2 with h | h
      · rw [update_job_on_completed j2 c n2 sch2 (by simpa [finalResultOf] using h)]
      · rw [update_job_member_count j2 c n2 sch2 (by simpa [updatedClientsOf] using h)]
        simp [doneCountOf]

theorem runOps_cons (st : Option JobRecord) (op : Op) (rest : List Op) :
    runOps st (op :: rest) = runOps (apply_op st op) rest := rfl

theorem apply_op_count_card (st : Option JobRecord) (op : Op)
    (h : doneCountOf st = ((updatedClientsOf st).card : Int)) :
    doneCountOf (apply_op st op) = ((updatedClientsOf (apply_op st op)).card : Int) := by
  cases op with
  | statusQuery => exact h
  | update c n sch =>
      cases st with
      | none =>
          simp only [apply_op]
          unfold update_job
          dsimp only
          split_ifs <;>
            simp_all [doneCountOf, updatedClientsOf, increment_done_count, create_job_record,
              maybe_store_schema_clients, maybe_store_schema_doneCount, _is_job_completed,
              Finset.card_insert_of_not_mem]
      | some j =>
          simp only [apply_op]
          unfold update_job
          dsimp only
          split_ifs <;>
            simp_all [doneCountOf, updatedClientsOf, increment_done_count,
              maybe_store_schema_clients, maybe_store_schema_doneCount,
              Finset.card_insert_of_not_mem]

theorem update_job_clients_subset (st : Option JobRecord) (c : String) (n : Int)
    (sch : Option (List FeatureSpec)) :
    updatedClientsOf (update_job st c n sch).store ⊆ insert c (updatedClientsOf st) := by
  cases st with
  | none =>
      unfold update_job
      dsimp only
      split_ifs <;>
        simp_all [updatedClientsOf, increment_done_count, create_job_record,
          maybe_store_schema_clients, _is_job_completed]
  | some j =>
      unfold update_job
      dsimp only
      split_ifs <;>
        simp_all [updatedClientsOf, increment_done_count, maybe_store_schema_clients,
          Finset.subset_insert, Finset.insert_subset_insert]

theorem runOps_count_card (st : Option JobRecord) (ops : List Op)
    (h : doneCountOf st = ((updatedClientsOf st).card : Int)) :
    doneCountOf (runOps st ops) = ((updatedClientsOf (runOps st ops)).card : Int) ∧
      updatedClientsOf (runOps st ops) ⊆ updatedClientsOf st ∪ opClients ops := by
  induction ops generalizing st with
  | nil => exact ⟨h, by simp [runOps, opClients]⟩
  | cons op rest ih =>
      obtain ⟨ih1, ih2⟩ := ih (apply_op st op) (apply_op_count_card st op h)
      rw [runOps_cons]
      refine ⟨ih1, ih2.trans ?_⟩
      cases op with
      | statusQuery => simp [apply_op, opClients]
      | update c n sch =>
          intro x hx
          rcases Finset.mem_union.mp hx with hx | hx
          · rcases Finset.mem_insert.mp (update_job_clients_subset st c n sch hx) with hx | hx
            · subst hx
              exact Finset.mem_union_right _ (by simp [opClients])
            · exact Finset.mem_union_left _ hx
          · exact Finset.mem_union_right _ (by simp [opClients, hx])

/-- C2 (amended): at every point reachable by a sequence of update and status
operations, `doneCount` equals the cardinality of the `updatedClients`
membership set, and `doneCount` is bounded by the number of distinct clients
that have sent updates.  (The bound `doneCount ≤ totalClients` claimed by the
spec holds only when at most `totalClients` distinct clients report; the code
does not enforce it — see the counterexample.) -/
theorem done_count_membership_invariant (ops : List Op) :
    doneCountOf (runOps none ops) = ((updatedClientsOf (runOps none ops)).card : Int) ∧
      doneCountOf (runOps none ops) ≤ ((opClients ops).card : Int) := by
  obtain ⟨h1, h2⟩ := runOps_count_card none ops (by simp [doneCountOf, updatedClientsOf])
  refine ⟨h1, ?_⟩
  rw [h1]
  have hsub : updatedClientsOf (runOps none ops) ⊆ opClients ops := by
    simpa [updatedClientsOf] using h2
  exact_mod_cast Finset.card_le_card hsub

/-- C2 counterexample: with `totalClients = 1` and two distinct clients
reporting, the job record reaches `doneCount = 2 > totalClients = 1`; the code
never enforces `doneCount ≤ totalClients`. -/
theorem done_count_exceeds_total_clients :
    doneCountOf (runOps none [.update "c1" 1 none, .update "c2" 1 none]) = 2 ∧
    totalClientsOf (runOps none [.update "c1" 1 none, .update "c2" 1 none]) = 1 ∧
    ¬ doneCountOf (runOps none [.update "c1" 1 none, .update "c2" 1 none]) ≤
        totalClientsOf (runOps none [.update "c1" 1 none, .update "c2" 1 none]) := by
  decide

/-- C1: the trigger decision is NOT derived from the store's atomic
transition.  With `totalClients = 2` and the two distinct-client updates
interleaved at the Redis-call boundaries (each client increments before
either re-reads the count), BOTH requests observe
`doneCount = 2 >= totalClients` and each spawns an aggregator thread: the
trigger fires twice.  Under sequential delivery of the same two updates it
fires exactly once, on the update that makes `doneCount` reach
`totalClients`. -/
theorem aggregator_trigger_race :
    ((run_schedule { store := none, triggers := 0 } [mkReq "c1" 2, mkReq "c2" 2]
        [0, 0, 0, 0, 0, 1, 1, 1, 1, 1, 0, 1]).1).triggers = 2 ∧
    ((run_schedule { store := none, triggers := 0 } [mkReq "c1" 2, mkReq "c2" 2]
        [0, 0, 0, 0, 0, 0, 1, 1, 1, 1, 1, 1]).1).triggers = 1 := by
  decide

/-- A poll response on which the `while True` loop keeps polling: an HTTP
error, a network error, or a body whose status is not COMPLETED. -/
def non_terminating (p : PollResponse) : Bool :=
  match p with
  | .ok body => !(body.status == "COMPLETED")
  | .httpError => true
  | .netError => true

theorem poll_skips_non_terminating (st : Option JobRecord) (job_id : String)
    (cl : List String) (pre polls : List PollResponse)
    (hpre : ∀ p ∈ pre, non_terminating p = true) :
    poll_for_result st job_id cl (pre ++ polls) = poll_for_result st job_id cl polls := by
  induction pre with
  | nil => rfl
  | cons p rest ih =>
      have hp := hpre p (List.mem_cons_self p rest)
      have hrest : ∀ q ∈ rest, non_terminating q = true :=
        fun q hq => hpre q (List.mem_cons_of_mem p hq)
      cases p with
      | ok body =>
          simp only [List.cons_append, poll_for_result]
          rw [if_neg (by simpa [non_terminating] using hp)]
          exact ih hrest
      | httpError =>
          simpa only [List.cons_append, poll_for_result] using ih hrest
      | netError =>
          simpa only [List.cons_append, poll_for_result] using ih hrest

/-- C9 (amended): when the polling loop observes a COMPLETED remote result
(after any number of non-terminating polls) and decoding the raw output array
with the stored schema yields a NON-EMPTY feature list, then that list is
attached to the result payload, the time-stamped result is persisted into the
job store, and the decoded features are forwarded to the Result Sink with the
job's recorded client list.  (When decode yields no features — no stored
schema, or every slice short — the COMPLETED result is persisted without a
`decodedFeatures` attachment and nothing is forwarded: see the
counterexample.) -/
theorem completed_poll_decodes_persists_forwards (j : JobRecord) (job_id : String)
    (pre rest : List PollResponse) (body : ResultJson) (now : String)
    (hpre : ∀ p ∈ pre, non_terminating p = true)
    (hstatus : body.status = "COMPLETED")
    (hclients : ¬ (j.updatedClients.sort (· ≤ ·)).isEmpty = true)
    (hdec : ¬ (decode_final_output (some j) body.computationOutput).isEmpty = true) :
    aggregator_task (some j) job_id true (pre ++ .ok body :: rest) now =
      (some (set_final_result j
              { body with
                  decodedFeatures :=
                    some (decode_final_output (some j) body.computationOutput),
                  completedAt := some now, timestamp := some now }),
       [{ aggregated_data := decode_final_output (some j) body.computationOutput,
          job_id := job_id,
          client_list := j.updatedClients.sort (· ≤ ·) }]) := by
  have hT : trigger_and_poll_aggregator (some j) job_id true (pre ++ .ok body :: rest) =
      some ({ body with
                decodedFeatures :=
                  some (decode_final_output (some j) body.computationOutput) },
            [{ aggregated_data := decode_final_output (some j) body.computationOutput,
               job_id := job_id,
               client_list := j.updatedClients.sort (· ≤ ·) }]) := by
    unfold trigger_and_poll_aggregator
    dsimp only
    rw [if_neg hclients, if_neg (by simp),
      poll_skips_non_terminating _ _ _ pre _ hpre]
    simp only [poll_for_result]
    rw [if_pos (by simp [hstatus]), if_neg hdec]
  unfold aggregator_task
  rw [hT]

/-- Witness for C9's amended statement: one failed poll, then a COMPLETED
result whose boolean feature decodes; the decoded record is attached,
persisted and forwarded. -/
theorem completed_poll_decodes_persists_forwards_witness :
    aggregator_task
        (some { totalClients := 1, doneCount := 1,
                schema := some [⟨"a", 0, 2, some "BOOLEAN", none⟩],
                finalResult := none, updatedClients := {"c1"} })
        "job1" true
        [.httpError,
         .ok { status := "COMPLETED", computationOutput := [10, 5],
               decodedFeatures := none, completedAt := none, timestamp := none }] "t0" =
      (some (set_final_result
              { totalClients := 1, doneCount := 1,
                schema := some [⟨"a", 0, 2, some "BOOLEAN", none⟩],
                finalResult := none, updatedClients := {"c1"} }
              { status := "COMPLETED", computationOutput := [10, 5],
                decodedFeatures :=
                  some (decode_final_output
                    (some { totalClients := 1, doneCount := 1,
                            schema := some [⟨"a", 0, 2, some "BOOLEAN", none⟩],
                            finalResult := none, updatedClients := {"c1"} }) [10, 5]),
                completedAt := some "t0", timestamp := some "t0" }),
       [{ aggregated_data :=
            decode_final_output
              (some { totalClients := 1, doneCount := 1,
                      schema := some [⟨"a", 0, 2, some "BOOLEAN", none⟩],
                      finalResult := none, updatedClients := {"c1"} }) [10, 5],
          job_id := "job1",
          client_list :=
            ({"c1"} : Finset String).sort (· ≤ ·) }]) :=
  completed_poll_decodes_persists_forwards _ "job1" [.httpError] []
    { status := "COMPLETED", computationOutput := [10, 5],
      decodedFeatures := none, completedAt := none, timestamp := none } "t0"
    (by decide)
    rfl
    (by simp [Finset.sort_singleton])
    (by norm_num [decode_final_output, schema_truthy, decode_features, decode_feature_item,
          decode_boolean_feature])

/-- C9 counterexample: a job with a stored schema whose only feature needs 7
values receives a COMPLETED output of length 2: decode yields no features, so
the result is persisted WITHOUT a `decodedFeatures` attachment and nothing is
forwarded to the Result Sink — decoded features are neither attached nor
forwarded, contrary to the claim. -/
theorem completed_poll_without_forwarding :
    aggregator_task
        (some { totalClients := 1, doneCount := 1,
                schema := some [⟨"a", 0, 7, some "NUMERIC", none⟩],
                finalResult := none, updatedClients := {"c1"} })
        "job1" true
        [.ok { status := "COMPLETED", computationOutput := [1, 2],
               decodedFeatures := none, completedAt := none, timestamp := none }] "t0" =
      (some { totalClients := 1, doneCount := 1,
              schema := some [⟨"a", 0, 7, some "NUMERIC", none⟩],
              finalResult :=
                some { status := "COMPLETED", computationOutput := [1, 2],
                       decodedFeatures := none, completedAt := some "t0",
                       timestamp := some "t0" },
              updatedClients := {"c1"} },
       []) := by
  unfold aggregator_task trigger_and_poll_aggregator
  dsimp only
  rw [Finset.sort_singleton]
  norm_num [poll_for_result, decode_final_output, schema_truthy, decode_features,
    set_final_result]
